import Mathlib

/-!
Verification of the shared-memory runtime core of `hyoklee/core` against its
natural-language specification.

The development shallowly embeds the C++ sources:

* `hermes_shm/memory/allocator/heap.h`            — bump-pointer heap
* `hermes_shm/memory/allocator/mp_allocator.h`    — hierarchical multi-process
  allocator (three-tier allocate, free routing, `shm_attach` reconstruction)
* `hermes_shm/memory/backend/posix_shm_mmap.h`    — POSIX shm backend
  (`shm_init`, `shm_attach`, `shm_destroy`, destructor)
* `context-runtime/src/task.cc`                   — `Task::Wait`,
  `Task::Yield`, `Task::EstCpuTime`

Machine integers (`size_t`) are modelled as `Nat` reduced modulo `2^64` at
the operations where the C++ code can overflow.  Components the sources call
but whose definitions are not part of the repository snapshot (the worker's
blocked-queue bookkeeping, the `BuddyAllocator` internals, `SystemInfo`'s
shm-object table) are modelled from the specification text; each such
definition carries a doc comment saying so.
-/

namespace CoreSpec

/-- `2^64`: one past the largest `size_t` value; `size_t` arithmetic wraps
modulo this constant. -/
def u64Cap : Nat := 18446744073709551616

/-! ## Bump-pointer heap (`heap.h`, `Heap<ATOMIC>::Allocate`)

State is `(heap_, max_offset_)`.  The sequential (single-caller) semantics of
`Allocate` is embedded; every `size_t` addition is taken modulo `2^64`, as in
the source.  The result is `(returned offset, new heap_, new max_offset_)`;
the source returns offset `0` to signal failure. -/

/-- `Heap::Allocate(size)` from `heap.h` lines 93-112: reject when
`heap_.load() + size > max_offset_`; otherwise fetch-add the cursor and
return its pre-advance value.  The second guard (`end_off > max_offset_`,
which also publishes `end_off` into `max_offset_`) is kept for fidelity even
though it is unreachable sequentially. -/
def heapAllocate (heap maxOff size : Nat) : Nat × Nat × Nat :=
  if (heap + size) % u64Cap > maxOff then
    (0, heap, maxOff)
  else
    let off := heap
    let heap2 := (heap + size) % u64Cap
    let endOff := (off + size) % u64Cap
    if endOff > maxOff then
      (0, heap2, endOff)
    else
      (off, heap2, maxOff)

/-! ## `Task::EstCpuTime` (`task.cc` lines 146-152)

`size_t io_time_us = (stat_.io_size_ * 1000000) / 4294967296ULL;
 return io_time_us + stat_.compute_ + 5;`
The field widths of `stat_` are not in the snapshot (`task.h` is absent);
they are taken as 64-bit `size_t`, matching the 64-bit constants used by the
expression. -/

/-- `Task::EstCpuTime` in 64-bit arithmetic: the product `io_size_ * 1000000`
wraps modulo `2^64` before the division by `4294967296`. -/
def estCpuTime (ioSize compute : Nat) : Nat :=
  (((ioSize * 1000000) % u64Cap) / 4294967296 + compute + 5) % u64Cap

end CoreSpec

namespace CoreSpec

/-- C5: For every heap state `(current, limit)` and request size `n` (all
`size_t` values, so the sum `current + n` is the wrapped 64-bit sum the code
computes), `allocate(n)` returns the pre-advance cursor and advances the
cursor by `n` when the sum is within the limit, and returns null (offset 0)
without advancing when the sum exceeds the limit. -/
theorem heap_allocate_spec (h m n : Nat) (_hh : h < u64Cap) (_hm : m < u64Cap)
    (_hn : n < u64Cap) :
    ((h + n) % u64Cap > m → heapAllocate h m n = (0, h, m)) ∧
    ((h + n) % u64Cap ≤ m → heapAllocate h m n = (h, (h + n) % u64Cap, m)) := by
  constructor
  · intro hgt
    unfold heapAllocate
    simp [hgt]
  · intro hle
    unfold heapAllocate
    simp [Nat.not_lt.mpr hle]

/-- Witness for C5: at `current = 4096`, `limit = 65536`, `n = 1024` the
allocation succeeds, returning `4096` and advancing the cursor to `5120`. -/
theorem heap_allocate_spec_witness :
    ((4096 + 1024) % u64Cap > 65536 → heapAllocate 4096 65536 1024 = (0, 4096, 65536)) ∧
    ((4096 + 1024) % u64Cap ≤ 65536 → heapAllocate 4096 65536 1024 = (4096, (4096 + 1024) % u64Cap, 65536)) :=
  heap_allocate_spec 4096 65536 1024 (by decide) (by decide) (by decide)

/-- C9 counterexample: at `io_size = 2^58` (with `compute_us = 0`) the 64-bit
product `io_size * 1000000` wraps to `0`, so `EstCpuTime` returns `5`, while
the exact integer formula `(io_size * 1000000) / 4294967296 + compute_us + 5`
gives `67108864000005`. -/
theorem est_cpu_time_overflow_counterexample :
    estCpuTime 288230376151711744 0 = 5 ∧
    288230376151711744 * 1000000 / 4294967296 + 0 + 5 = 67108864000005 ∧
    (5 : Nat) ≠ 67108864000005 := by
  refine ⟨by decide, by decide, by decide⟩

/-- C9 (amended): `EstCpuTime` computes
`((io_size * 1000000) mod 2^64) / 4294967296 + compute_us + 5` in 64-bit
arithmetic; whenever `io_size * 1000000` and the final sum do not overflow
64 bits, this equals the exact integer value
`(io_size * 1000000) / 4294967296 + compute_us + 5`. -/
theorem est_cpu_time_exact_when_no_overflow (io c : Nat)
    (hprod : io * 1000000 < u64Cap)
    (hsum : io * 1000000 / 4294967296 + c + 5 < u64Cap) :
    estCpuTime io c = io * 1000000 / 4294967296 + c + 5 := by
  unfold estCpuTime
  rw [Nat.mod_eq_of_lt hprod, Nat.mod_eq_of_lt hsum]

/-- Witness for the amended C9: a 4 GiB I/O with `compute_us = 100` costs
`1000000 + 100 + 5 = 1000105` microseconds. -/
theorem est_cpu_time_exact_witness :
    4294967296 * 1000000 < u64Cap ∧
    estCpuTime 4294967296 100 = 4294967296 * 1000000 / 4294967296 + 100 + 5 :=
  ⟨by decide, est_cpu_time_exact_when_no_overflow 4294967296 100 (by decide) (by decide)⟩

end CoreSpec

namespace CoreSpec

/-! ## Hierarchical multi-process allocator (`mp_allocator.h`)

`MultiProcessAllocator::AllocateOffset` composes three buddy allocators: the
thread-local `ThreadBlock`, the per-process `ProcessBlock`, and the global
pool.  `BuddyAllocator` itself is not part of the repository snapshot, so
each buddy instance is abstracted as a *script*: the list of results its
successive `AllocateOffset` calls return (an exhausted script answers null).
The control flow of `AllocateOffset`, `EnsureTls`'s outcome, and
`FreeOffset` are embedded from `mp_allocator.h` itself. -/

/-- One observable step of `MultiProcessAllocator::AllocateOffset`:
`ensure` is the `EnsureTls()` outcome, `tbAlloc` a `ThreadBlock::Allocate`
call, `globalAlloc` a global-buddy `AllocateOffset` call (`locked` marks the
tier-3 call made under `header_->lock_`), and `pbExpand` a
`ProcessBlock::Expand` hand-off of a freshly allocated chunk. -/
inductive AllocEv where
  | ensure (ok : Bool)
  | tbAlloc (size : Nat) (r : Option Nat)
  | globalAlloc (locked : Bool) (size : Nat) (r : Option Nat)
  | pbExpand (chunk : Nat)
deriving DecidableEq, Repr

/-- Abstract state of one `AllocateOffset` call: whether `EnsureTls` yields a
`ThreadBlock`, whether the TLS `ProcessBlock` pointer is set, the response
scripts of the thread-block and global buddy allocators, and the chunks so
far handed to the `ProcessBlock` via `Expand`. -/
structure MpSt where
  has_tb : Bool
  has_pb : Bool
  tb_script : List (Option Nat)
  global_script : List (Option Nat)
  pb_expands : List Nat
deriving DecidableEq, Repr

/-- Pop the next scripted buddy-allocator response (an exhausted allocator
answers null). -/
def scriptPop : List (Option Nat) → Option Nat × List (Option Nat)
  | [] => (none, [])
  | r :: rest => (r, rest)

/-- Tier 3 of `AllocateOffset` (`mp_allocator.h` lines 624-628): allocate
directly from the global buddy allocator under `header_->lock_`. -/
def mpAllocTier3 (st : MpSt) (size : Nat) : Option Nat × List AllocEv × MpSt :=
  let r := (scriptPop st.global_script).1
  (r, [AllocEv.globalAlloc true size r],
   { st with global_script := (scriptPop st.global_script).2 })

/-- Tier 2 of `AllocateOffset` (`mp_allocator.h` lines 608-622): if the TLS
`ProcessBlock` exists, allocate a chunk of the requested size from the global
buddy allocator (no header lock), hand it to the `ProcessBlock` via
`Expand`, and retry the `ThreadBlock`; fall through to tier 3 otherwise. -/
def mpAllocTier2 (st : MpSt) (size : Nat) : Option Nat × List AllocEv × MpSt :=
  if st.has_pb then
    match scriptPop st.global_script with
    | (some c, gs1) =>
      let st1 : MpSt := { st with global_script := gs1,
                                  pb_expands := st.pb_expands ++ [c] }
      let evs1 := [AllocEv.globalAlloc false size (some c), AllocEv.pbExpand c]
      if st1.has_tb then
        match scriptPop st1.tb_script with
        | (some p, ts1) =>
          (some p, evs1 ++ [AllocEv.tbAlloc size (some p)],
           { st1 with tb_script := ts1 })
        | (none, ts1) =>
          let t3 := mpAllocTier3 { st1 with tb_script := ts1 } size
          (t3.1, evs1 ++ [AllocEv.tbAlloc size none] ++ t3.2.1, t3.2.2)
      else
        let t3 := mpAllocTier3 st1 size
        (t3.1, evs1 ++ t3.2.1, t3.2.2)
    | (none, gs1) =>
      let t3 := mpAllocTier3 { st with global_script := gs1 } size
      (t3.1, [AllocEv.globalAlloc false size none] ++ t3.2.1, t3.2.2)
  else
    mpAllocTier3 st size

/-- `MultiProcessAllocator::AllocateOffset` (`mp_allocator.h` lines
598-629): tier 1 calls `EnsureTls` and, when a `ThreadBlock` is available,
tries it first; on a null result the call falls through to tiers 2 and 3. -/
def mpAllocateOffset (st : MpSt) (size : Nat) : Option Nat × List AllocEv × MpSt :=
  let ev0 := [AllocEv.ensure st.has_tb]
  if st.has_tb then
    match scriptPop st.tb_script with
    | (some p, ts1) =>
      (some p, ev0 ++ [AllocEv.tbAlloc size (some p)],
       { st with tb_script := ts1 })
    | (none, ts1) =>
      let t2 := mpAllocTier2 { st with tb_script := ts1 } size
      (t2.1, ev0 ++ [AllocEv.tbAlloc size none] ++ t2.2.1, t2.2.2)
  else
    let t2 := mpAllocTier2 st size
    (t2.1, ev0 ++ t2.2.1, t2.2.2)

/-- Where `MultiProcessAllocator::FreeOffset` routes a free:
`skipped` for a null offset (early return), `threadBlock` for a free into
the calling thread's `ThreadBlock`, `globalPool` for a free into the global
buddy allocator under the lock. -/
inductive FreeDest where
  | skipped
  | threadBlock
  | globalPool
deriving DecidableEq, Repr

/-- `MultiProcessAllocator::FreeOffset` (`mp_allocator.h` lines 668-688):
null offsets return immediately; otherwise the free goes to the calling
thread's TLS `ThreadBlock` whenever one exists ("For now, just try to free
it"), and only threads without a `ThreadBlock` fall back to the global
allocator.  The offset value itself is never inspected. -/
def mpFreeOffset (hasTb : Bool) (off : Option Nat) : FreeDest :=
  match off with
  | none => FreeDest.skipped
  | some _ => if hasTb then FreeDest.threadBlock else FreeDest.globalPool

/-- Tier 3 computes its event list from its own result. -/
theorem mpAllocTier3_eq (st : MpSt) (n : Nat) :
    mpAllocTier3 st n =
      ((scriptPop st.global_script).1,
       [AllocEv.globalAlloc true n (scriptPop st.global_script).1],
       { st with global_script := (scriptPop st.global_script).2 }) := rfl

/-- If tier 3 returns null its (single-event) trace is a locked global
allocation returning null. -/
theorem mpAllocTier3_none (st : MpSt) (n : Nat)
    (hres : (mpAllocTier3 st n).1 = none) :
    (mpAllocTier3 st n).2.1 = [AllocEv.globalAlloc true n none] := by
  rw [mpAllocTier3_eq] at hres ⊢
  simp only at hres ⊢
  rw [hres]

/-- If tier 2 returns null, its trace ends with a locked tier-3 global
allocation that returned null. -/
theorem mpAllocTier2_none (st : MpSt) (n : Nat)
    (hres : (mpAllocTier2 st n).1 = none) :
    ∃ pre, (mpAllocTier2 st n).2.1 = pre ++ [AllocEv.globalAlloc true n none] := by
  obtain ⟨htb, hpb, tbs, gls, pbe⟩ := st
  cases hpb with
  | false =>
    refine ⟨[], ?_⟩
    simpa using mpAllocTier3_none ⟨htb, false, tbs, gls, pbe⟩ n hres
  | true =>
    rcases gls with _ | ⟨g, gs⟩
    · refine ⟨[AllocEv.globalAlloc false n none], ?_⟩
      simp only [mpAllocTier2, scriptPop, if_true] at hres ⊢
      rw [mpAllocTier3_none _ n hres]
    · rcases g with _ | c
      · refine ⟨[AllocEv.globalAlloc false n none], ?_⟩
        simp only [mpAllocTier2, scriptPop, if_true] at hres ⊢
        rw [mpAllocTier3_none _ n hres]
      · cases htb with
        | false =>
          refine ⟨[AllocEv.globalAlloc false n (some c), AllocEv.pbExpand c], ?_⟩
          simp only [mpAllocTier2, scriptPop, if_true, Bool.false_eq_true,
            if_false] at hres ⊢
          rw [mpAllocTier3_none _ n hres]
        | true =>
          rcases tbs with _ | ⟨t, ts⟩
          · refine ⟨[AllocEv.globalAlloc false n (some c), AllocEv.pbExpand c,
                     AllocEv.tbAlloc n none], ?_⟩
            simp only [mpAllocTier2, scriptPop, if_true] at hres ⊢
            rw [mpAllocTier3_none _ n hres]
            simp
          · rcases t with _ | p
            · refine ⟨[AllocEv.globalAlloc false n (some c), AllocEv.pbExpand c,
                       AllocEv.tbAlloc n none], ?_⟩
              simp only [mpAllocTier2, scriptPop, if_true] at hres ⊢
              rw [mpAllocTier3_none _ n hres]
              simp
            · simp only [mpAllocTier2, scriptPop, if_true] at hres
              simp at hres

/-- C3: the three-tier allocation algorithm of
`MultiProcessAllocator::AllocateOffset` is followed in order.  (1) When the
thread block (after `EnsureTls`) satisfies the request, its result is
returned with no global-allocator activity.  (2) When the thread block
answers null, a chunk of the requested size is taken from the global buddy
allocator, handed to the process block via `Expand`, and the thread block is
retried; a successful retry's result is returned.  (3) A null result is only
ever produced by the final locked tier-3 global allocation. -/
theorem mp_allocate_three_tier :
    (∀ st n p ts, st.has_tb = true → st.tb_script = some p :: ts →
       mpAllocateOffset st n =
         (some p, [AllocEv.ensure true, AllocEv.tbAlloc n (some p)],
          { st with tb_script := ts })) ∧
    (∀ st n p ts c gs, st.has_tb = true → st.has_pb = true →
       st.tb_script = none :: some p :: ts → st.global_script = some c :: gs →
       mpAllocateOffset st n =
         (some p,
          [AllocEv.ensure true, AllocEv.tbAlloc n none,
           AllocEv.globalAlloc false n (some c), AllocEv.pbExpand c,
           AllocEv.tbAlloc n (some p)],
          { st with tb_script := ts, global_script := gs,
                    pb_expands := st.pb_expands ++ [c] })) ∧
    (∀ st n, (mpAllocateOffset st n).1 = none →
       ∃ pre, (mpAllocateOffset st n).2.1 = pre ++ [AllocEv.globalAlloc true n none]) := by
  refine ⟨?_, ?_, ?_⟩
  · intro st n p ts htb hscript
    obtain ⟨b1, b2, tbs, gls, pbe⟩ := st
    simp only at htb hscript
    subst htb hscript
    rfl
  · intro st n p ts c gs htb hpb htbs hgls
    obtain ⟨b1, b2, tbs, gls, pbe⟩ := st
    simp only at htb hpb htbs hgls
    subst htb hpb htbs hgls
    rfl
  · intro st n hres
    obtain ⟨htb, hpb, tbs, gls, pbe⟩ := st
    cases htb with
    | false =>
      simp only [mpAllocateOffset, Bool.false_eq_true, if_false] at hres ⊢
      obtain ⟨pre, hpre⟩ := mpAllocTier2_none ⟨false, hpb, tbs, gls, pbe⟩ n hres
      exact ⟨AllocEv.ensure false :: pre, by simp [hpre]⟩
    | true =>
      rcases tbs with _ | ⟨t, ts⟩
      · simp only [mpAllocateOffset, scriptPop, if_true] at hres ⊢
        obtain ⟨pre, hpre⟩ := mpAllocTier2_none ⟨true, hpb, [], gls, pbe⟩ n hres
        exact ⟨AllocEv.ensure true :: AllocEv.tbAlloc n none :: pre, by simp [hpre]⟩
      · rcases t with _ | p
        · simp only [mpAllocateOffset, scriptPop, if_true] at hres ⊢
          obtain ⟨pre, hpre⟩ := mpAllocTier2_none ⟨true, hpb, ts, gls, pbe⟩ n hres
          exact ⟨AllocEv.ensure true :: AllocEv.tbAlloc n none :: pre, by simp [hpre]⟩
        · simp only [mpAllocateOffset, scriptPop, if_true] at hres
          simp at hres

/-- Witness for C3 (fast path conjunct): with a thread block whose next
answer is offset `7`, `AllocateOffset` returns `7` after exactly
`EnsureTls` and one thread-block allocation. -/
theorem mp_allocate_three_tier_witness :
    mpAllocateOffset ⟨true, false, [some 7], [some 99], []⟩ 64 =
      (some 7, [AllocEv.ensure true, AllocEv.tbAlloc 64 (some 7)],
       ⟨true, false, [], [some 99], []⟩) :=
  mp_allocate_three_tier.1 ⟨true, false, [some 7], [some 99], []⟩ 64 7 [] rfl rfl

/-- C4, evaluated at the failing input: on a thread whose `EnsureTls` failed
(`has_tb = false`, no TLS process block), `AllocateOffset` serves offset `42`
from the tier-3 *global* buddy allocator — the issuing allocator is the
global pool.  If any thread holding a TLS `ThreadBlock` later frees offset
`42`, `FreeOffset` routes the free into that thread's `ThreadBlock`, not
back to the issuing global allocator: the destination depends only on the
freeing thread's TLS, never on the offset. -/
theorem mp_free_not_routed_to_issuer :
    (mpAllocateOffset ⟨false, false, [], [some 42], []⟩ 64).1 = some 42 ∧
    (mpAllocateOffset ⟨false, false, [], [some 42], []⟩ 64).2.1 =
      [AllocEv.ensure false, AllocEv.globalAlloc true 64 (some 42)] ∧
    mpFreeOffset true (some 42) = FreeDest.threadBlock ∧
    FreeDest.threadBlock ≠ FreeDest.globalPool ∧
    (∀ off : Nat, mpFreeOffset true (some off) = FreeDest.threadBlock) := by
  refine ⟨rfl, rfl, rfl, by decide, fun _ => rfl⟩

/-- C6 counterexample: `Heap::Allocate(0)` on the state
`(current, limit) = (64, 128)` returns offset `64` — the pre-advance cursor,
a non-null value — rather than null. -/
theorem heap_zero_size_alloc_counterexample :
    heapAllocate 64 128 0 = (64, 64, 128) ∧ (64 : Nat) ≠ 0 := by
  refine ⟨by decide, by decide⟩

/-- C6 (amended): zero-size allocation is not special-cased.
`Heap::Allocate(0)` returns the pre-advance cursor without advancing (null
only when the cursor itself is 0 or the limit check fails), and
`MultiProcessAllocator::AllocateOffset` contains no zero-size check: a
zero-size request is passed to the tier allocators unchanged, and whatever
non-null offset the thread block returns for it is returned to the caller. -/
theorem zero_size_alloc_not_null (h m : Nat) (hh : h ≤ m) (hcap : m < u64Cap) :
    heapAllocate h m 0 = (h, h, m) ∧
    (∀ st : MpSt, ∀ p ts, st.has_tb = true → st.tb_script = some p :: ts →
       (mpAllocateOffset st 0).1 = some p) := by
  constructor
  · have hlt : h < u64Cap := Nat.lt_of_le_of_lt hh hcap
    have hmod : h % u64Cap = h := Nat.mod_eq_of_lt hlt
    simp [heapAllocate, hmod, Nat.not_lt.mpr hh]
  · intro st p ts htb hscript
    obtain ⟨b1, b2, tbs, gls, pbe⟩ := st
    simp only at htb hscript
    subst htb hscript
    rfl

/-- Witness for the amended C6: `Heap::Allocate(0)` at cursor `4096` returns
`4096`, and a zero-size `AllocateOffset` whose thread block answers offset
`9` returns `9`. -/
theorem zero_size_alloc_not_null_witness :
    heapAllocate 4096 65536 0 = (4096, 4096, 65536) ∧
    (mpAllocateOffset ⟨true, false, [some 9], [], []⟩ 0).1 = some 9 :=
  ⟨(zero_size_alloc_not_null 4096 65536 (by decide) (by decide)).1,
   (zero_size_alloc_not_null 4096 65536 (by decide) (by decide)).2
     ⟨true, false, [some 9], [], []⟩ 9 [] rfl rfl⟩

end CoreSpec

namespace CoreSpec

/-! ## POSIX shared-memory backend (`posix_shm_mmap.h`)

The OS-level shared-memory namespace (`SystemInfo`'s shm-object table, not
part of the repository snapshot) is modelled from the spec as the set of
existing object names; names are identified by naturals.  `shm_init`,
`shm_attach`, `shm_detach`, `shm_destroy` and the destructor are embedded
from `posix_shm_mmap.h`; the backend flags (`SetInitialized`/`Own`/`Disown`,
declared in the absent `memory_backend.h`) are modelled from the spec as the
initialized and owner booleans. -/

/-- A POSIX shm object name (`url`). -/
abbrev Url := Nat

/-- Backend-visible effects of `shm_init` and of backend teardown. -/
inductive ShmEv where
  | destroyUrl (u : Url)
  | createUrl (u : Url)
  | mapMixed
  | unmap
  | closeFd
  | unlink (u : Url)
deriving DecidableEq, Repr

/-- Modelled from the spec: `SystemInfo::DestroySharedMemory` (`shm_unlink`)
removes the named object from the OS shm namespace; removing an absent name
is a no-op. -/
def shmUnlinkName (w : List Url) (url : Url) : List Url :=
  w.filter (fun v => !(v == url))

/-- Modelled from the spec: `SystemInfo::CreateNewSharedMemory` creates a
fresh object of the given name, failing if the name already exists. -/
def shmCreateNew (w : List Url) (url : Url) : Bool × List Url :=
  if url ∈ w then (false, w) else (true, url :: w)

/-- Process-local backend state relevant to create/attach/destroy: the
`Initialized` and `Owned` flags, whether the shared header was written, and
the (minimum-enforced) data size. -/
structure BackendSt where
  initialized : Bool
  owned : Bool
  headerWritten : Bool
  dataSize : Nat
deriving DecidableEq, Repr

/-- `PosixShmMmap::shm_init` (`posix_shm_mmap.h` lines 72-138): enforce the
1 MiB minimum size, set the `Initialized` and `Owned` flags, **destroy any
existing shm object with the same url**, create a fresh object, map it, and
write the shared header.  `mmapOk` models whether the OS mapping call
succeeds.  Result: `(return value, backend state, OS namespace, effects)`. -/
def shmInit (w : List Url) (url : Url) (size : Nat) (mmapOk : Bool) :
    Bool × BackendSt × List Url × List ShmEv :=
  let size1 := if size < 1048576 then 1048576 else size
  -- flags_.Clear(); SetInitialized(); Own();
  let b0 : BackendSt := ⟨true, true, false, size1⟩
  -- SystemInfo::DestroySharedMemory(url);
  let w1 := shmUnlinkName w url
  -- SystemInfo::CreateNewSharedMemory(fd_, url, shared_size)
  let cr := shmCreateNew w1 url
  if cr.1 then
    if mmapOk then
      -- header written in place: id, md_size, data_size, flags cleared
      (true, { b0 with headerWritten := true }, cr.2,
       [ShmEv.destroyUrl url, ShmEv.createUrl url, ShmEv.mapMixed])
    else
      (false, b0, cr.2, [ShmEv.destroyUrl url, ShmEv.createUrl url])
  else
    (false, b0, cr.2, [ShmEv.destroyUrl url])

/-- `PosixShmMmap::shm_attach` flag effect (`posix_shm_mmap.h` lines
150-153): `flags_.Clear(); SetInitialized(); Disown();` — an attaching
process is initialized but never the owner. -/
def shmAttachFlags : BackendSt → BackendSt :=
  fun b => { b with initialized := true, owned := false }

/-- `PosixShmMmap::_Detach` (`posix_shm_mmap.h` lines 228-236): no-op unless
initialized; unmaps, closes the fd, and clears `Initialized`. -/
def pshmDetach (b : BackendSt) : BackendSt × List ShmEv :=
  if b.initialized then
    ({ b with initialized := false }, [ShmEv.unmap, ShmEv.closeFd])
  else
    (b, [])

/-- `PosixShmMmap::_Destroy` (`posix_shm_mmap.h` lines 239-246): no-op
unless initialized; detaches, then unlinks the shm object by url. -/
def pshmDestroy (url : Url) (b : BackendSt) : BackendSt × List ShmEv :=
  if b.initialized then
    let d := pshmDetach b
    ({ d.1 with initialized := false }, d.2 ++ [ShmEv.unlink url])
  else
    (b, [])

/-- `PosixShmMmap::shm_destroy` (`posix_shm_mmap.h` line 212): calls
`_Destroy()` directly — with **no** check of the owner flag. -/
def pshmShmDestroy (url : Url) (b : BackendSt) : BackendSt × List ShmEv :=
  pshmDestroy url b

/-- `PosixShmMmap::~PosixShmMmap` (`posix_shm_mmap.h` lines 44-52): destroy
when the owner flag is held, detach otherwise. -/
def pshmDtor (url : Url) (b : BackendSt) : BackendSt × List ShmEv :=
  if b.owned then pshmDestroy url b else pshmDetach b

/-- After unlinking a name it is no longer in the OS shm namespace. -/
theorem shmUnlinkName_not_mem (w : List Url) (url : Url) :
    url ∉ shmUnlinkName w url := by
  simp [shmUnlinkName, List.mem_filter]

/-- C7 counterexample: with the object `/x` (name `7`) already existing,
`shm_init` **succeeds** — it first destroys the existing object, then
creates a fresh one — instead of failing with `AlreadyExists`. -/
theorem shm_init_already_exists_counterexample :
    (shmInit [7] 7 1048576 true).1 = true ∧
    (shmInit [7] 7 1048576 true).2.2.2 =
      [ShmEv.destroyUrl 7, ShmEv.createUrl 7, ShmEv.mapMixed] := by
  refine ⟨by decide, by decide⟩

/-- C7 (amended): `shm_init(id, size, url)` allocates the (minimum-enforced)
size, writes the shared header, and sets the owner flag; but when an object
with the same url already exists it does **not** fail with `AlreadyExists` —
it unlinks the existing object first and creates a fresh one, so creation
only fails on backing-store or mapping errors. -/
theorem shm_init_replaces_existing (w : List Url) (url : Url) (size : Nat) :
    (shmInit w url size true).1 = true ∧
    (shmInit w url size true).2.1.owned = true ∧
    (shmInit w url size true).2.1.headerWritten = true ∧
    (shmInit w url size true).2.1.initialized = true ∧
    url ∈ (shmInit w url size true).2.2.1 ∧
    (shmInit w url size true).2.2.2 =
      [ShmEv.destroyUrl url, ShmEv.createUrl url, ShmEv.mapMixed] := by
  have hnm : url ∉ shmUnlinkName w url := shmUnlinkName_not_mem w url
  unfold shmInit shmCreateNew
  simp [hnm]

/-- C8 counterexample: a backend attached without ownership
(`owned = false`, as `shm_attach` sets it) still **unlinks** the backing shm
object when the explicit `shm_destroy()` is called: the owner flag is never
consulted on that path. -/
theorem shm_destroy_by_non_owner_counterexample :
    (pshmShmDestroy 7 (shmAttachFlags ⟨false, false, false, 0⟩)).2 =
      [ShmEv.unmap, ShmEv.closeFd, ShmEv.unlink 7] ∧
    ShmEv.unlink 7 ∈ (pshmShmDestroy 7 (shmAttachFlags ⟨false, false, false, 0⟩)).2 := by
  refine ⟨by decide, by decide⟩

/-- C8 (amended): at destruction time the destructor consults the owner
flag — a non-owner only detaches and never unlinks, while an initialized
owner unlinks; the explicit `shm_destroy`, however, unlinks any initialized
backend unconditionally, regardless of the owner flag. -/
theorem backend_teardown_owner_flag (url : Url) (b : BackendSt) :
    (b.owned = false → ShmEv.unlink url ∉ (pshmDtor url b).2) ∧
    (b.owned = true → b.initialized = true →
       ShmEv.unlink url ∈ (pshmDtor url b).2) ∧
    (b.initialized = true → ShmEv.unlink url ∈ (pshmShmDestroy url b).2) := by
  obtain ⟨bi, bo, bh, bs⟩ := b
  refine ⟨?_, ?_, ?_⟩
  · intro ho
    simp only at ho
    subst ho
    cases bi <;> simp [pshmDtor, pshmDetach]
  · intro ho hi
    simp only at ho hi
    subst ho hi
    simp [pshmDtor, pshmDestroy, pshmDetach]
  · intro hi
    simp only at hi
    subst hi
    simp [pshmShmDestroy, pshmDestroy, pshmDetach]

/-- Witness for the amended C8: a non-owner's destructor never unlinks;
an initialized owner's destructor unlinks; `shm_destroy` on an initialized
non-owner unlinks anyway. -/
theorem backend_teardown_owner_flag_witness :
    ShmEv.unlink 7 ∉ (pshmDtor 7 ⟨true, false, true, 1048576⟩).2 ∧
    ShmEv.unlink 7 ∈ (pshmDtor 7 ⟨true, true, true, 1048576⟩).2 ∧
    ShmEv.unlink 7 ∈ (pshmShmDestroy 7 ⟨true, false, true, 1048576⟩).2 :=
  ⟨(backend_teardown_owner_flag 7 ⟨true, false, true, 1048576⟩).1 rfl,
   (backend_teardown_owner_flag 7 ⟨true, true, true, 1048576⟩).2.1 rfl rfl,
   (backend_teardown_owner_flag 7 ⟨true, false, true, 1048576⟩).2.2 rfl⟩

end CoreSpec

namespace CoreSpec

/-! ## `MultiProcessAllocator::shm_attach` heap reconstruction
(`mp_allocator.h` lines 373-464)

The attaching process rebuilds its process-local `BuddyAllocator` object for
the global pool: free-list pointers are recomputed from the shared region,
and the heap bounds are recomputed from compile-time constants — the
creator's bump cursor (`heap_current_`, a process-local member of the
creator's allocator object) is *not* recovered (source comment: "This is
approximate, actual value may be higher"). -/

/-- The process-local heap bounds of a `BuddyAllocator` object:
`heap_begin_`, `heap_current_`, `heap_end_`. -/
structure BuddyCore where
  heap_begin : Nat
  heap_current : Nat
  heap_end : Nat
deriving DecidableEq, Repr

/-- `shm_attach`'s reconstruction of the attacher's global-buddy heap bounds
(`mp_allocator.h` lines 396-411).  `creator` is the creating process's buddy
object — available here to state independence, and ignored exactly as the
source ignores it.  `slistSize` stands for `sizeof(pre::slist<false>)`. -/
def mpAttachBuddyReconstruct (creator : BuddyCore)
    (dataOffset dataSize slistSize : Nat) : BuddyCore :=
  let kNumRoundUpLists := 10
  let kNumRoundDownLists := 6
  let metadataSize := (kNumRoundUpLists + kNumRoundDownLists) * slistSize
  let alignedMetadata := ((metadataSize + 63) / 64) * 64
  let _ := creator
  { heap_begin := dataOffset + alignedMetadata,
    heap_current := dataOffset + alignedMetadata,
    heap_end := dataOffset + dataSize }

/-- C10: after `shm_attach`'s reconstruction, the attacher's global buddy
allocator has its cursor at the start of the heap region
(`heap_current_ = heap_begin_`), and the reconstructed state is identical
for any two creator states — in particular the creator's bump cursor, and
hence its prior bump allocations, are not recovered. -/
theorem mp_attach_resets_heap_cursor (c1 c2 : BuddyCore)
    (dataOffset dataSize slistSize : Nat) :
    (mpAttachBuddyReconstruct c1 dataOffset dataSize slistSize).heap_current =
      (mpAttachBuddyReconstruct c1 dataOffset dataSize slistSize).heap_begin ∧
    mpAttachBuddyReconstruct c1 dataOffset dataSize slistSize =
      mpAttachBuddyReconstruct c2 dataOffset dataSize slistSize := by
  constructor <;> rfl

end CoreSpec

namespace CoreSpec

/-! ## `Task::Wait` and `Task::Yield` (`task.cc`)

Runtime-mode `Wait`/`Yield` with a current worker and run context are
embedded.  The completion flag is an atomic another thread stores to; it is
modelled as the schedule `f : Nat → Nat` giving the value the k-th load
observes (the task re-reads it once per resume).  The fiber jump
(`YieldBase`: save the context, jump to the worker, resume later) is
modelled as one loop step; the worker-side bookkeeping between yield and
resume lives in `worker.cc`, which is not part of the repository snapshot,
and is modelled from the spec (see `addToBlockedQueueOk`). -/

/-- The run-context fields `Task::Wait`/`Task::Yield` touch: the blocked
flag, the `waiting_for_tasks` list (task pointers, as naturals), and the
stored blocking hint (`block_time_us`, a pass-through value never computed
with). -/
structure RunContext where
  is_blocked : Bool
  waiting_for_tasks : List Nat
  block_time_us : Nat
deriving DecidableEq, Repr

/-- Modelled from the spec: `Worker::AddToBlockedQueue` (`worker.cc` is not
in the snapshot).  Spec §7 makes "yielding while already blocked" a fatal
invariant violation (log and abort); enqueuing an unblocked run context
succeeds.  The worker clears `is_blocked` when it later resumes the fiber
(spec §8: a task is blocked exactly while its awaited flag is zero). -/
def addToBlockedQueueOk (rc : RunContext) : Bool :=
  !rc.is_blocked

/-- Outcome of a runtime-mode `Task::Wait`: a fatal log-and-abort, a normal
return carrying the final run context and the number `k` of loop iterations
(each iteration performs exactly one `AddToBlockedQueue` and one yield, and
the flag load observed on exit is the k-th), or fuel exhaustion (the flag
was never seen non-zero within `fuel` loads). -/
inductive WaitResult where
  | fatalAbort
  | returned (rc : RunContext) (k : Nat)
  | outOfFuel
deriving DecidableEq, Repr

/-- The `while (is_complete.load() == 0)` loop of `Task::Wait` (`task.cc`
lines 60-65): check the flag; if zero, `AddToBlockedQueue` (spec-modelled
fatal when already blocked), `YieldBase` (fiber jumps to the worker, which
later resumes it with `is_blocked` cleared), `SetTaskDidWork(false)`, and
re-check. -/
def waitLoop (f : Nat → Nat) (rc : RunContext) (k fuel : Nat) : WaitResult :=
  match fuel with
  | 0 => WaitResult.outOfFuel
  | fuel' + 1 =>
    if f k = 0 then
      if addToBlockedQueueOk rc then
        waitLoop f rc (k + 1) fuel'
      else
        WaitResult.fatalAbort
    else
      WaitResult.returned rc k

/-- Runtime-mode `Task::Wait(is_complete, block_time_us)` with a current
worker and run context (`task.cc` lines 19-72): abort if the run context is
already blocked (lines 37-46); otherwise append this task to the run
context's `waiting_for_tasks`, store the blocking hint, and run the wait
loop. -/
def taskWaitRun (f : Nat → Nat) (thisTask blockTime : Nat) (rc : RunContext)
    (fuel : Nat) : WaitResult :=
  if rc.is_blocked then
    WaitResult.fatalAbort
  else
    let rc1 : RunContext :=
      { rc with waiting_for_tasks := rc.waiting_for_tasks ++ [thisTask],
                block_time_us := blockTime }
    waitLoop f rc1 0 fuel

/-- Outcome of a runtime-mode `Task::Yield`. -/
inductive YieldResult where
  | fatalAbort
  | yielded (rc : RunContext)
deriving DecidableEq, Repr

/-- Runtime-mode `Task::Yield(block_time_us)` with a current worker and run
context (`task.cc` lines 115-142): store the blocking hint,
`AddToBlockedQueue` (spec-modelled fatal when already blocked), and
`YieldBase` (which marks the context blocked and jumps to the worker). -/
def taskYieldRun (blockTime : Nat) (rc : RunContext) : YieldResult :=
  let rc1 : RunContext := { rc with block_time_us := blockTime }
  if addToBlockedQueueOk rc1 then
    YieldResult.yielded { rc1 with is_blocked := true }
  else
    YieldResult.fatalAbort

/-- The wait loop returns only at the first non-zero flag load, preserving
the run context. -/
theorem waitLoop_returned (f : Nat → Nat) :
    ∀ fuel k0 rc rc' k, rc.is_blocked = false →
      waitLoop f rc k0 fuel = WaitResult.returned rc' k →
      rc' = rc ∧ k0 ≤ k ∧ f k ≠ 0 ∧ (∀ j, k0 ≤ j → j < k → f j = 0) := by
  intro fuel
  induction fuel with
  | zero => intro k0 rc rc' k _ h; exact absurd h (by simp [waitLoop])
  | succ fuel' ih =>
    intro k0 rc rc' k hrc h
    unfold waitLoop at h
    by_cases hf : f k0 = 0
    · rw [if_pos hf] at h
      rw [if_pos (by simp [addToBlockedQueueOk, hrc])] at h
      obtain ⟨h1, h2, h3, h4⟩ := ih (k0 + 1) rc rc' k hrc h
      refine ⟨h1, Nat.le_of_succ_le h2, h3, ?_⟩
      intro j hj1 hj2
      rcases Nat.eq_or_lt_of_le hj1 with heq | hlt
      · rw [← heq]; exact hf
      · exact h4 j hlt hj2
    · rw [if_neg hf] at h
      cases h
      exact ⟨rfl, Nat.le_refl _, hf,
        fun j hj1 hj2 => absurd (Nat.lt_of_le_of_lt hj1 hj2) (Nat.lt_irrefl _)⟩

/-- C1: a runtime-mode `Task::Wait` that returns (rather than aborting or
spinning forever) does so exactly at the first non-zero flag load: the flag
was zero at each of the `k` earlier loads (each followed by one
`AddToBlockedQueue` and one yield/resume), the waited-on task was appended
to the run context's `waiting_for_tasks`, and if the flag is already
non-zero at entry then `k = 0` — `Wait` returns immediately with no
`AddToBlockedQueue` call. -/
theorem task_wait_contract (f : Nat → Nat) (t bt : Nat) (rc : RunContext)
    (fuel : Nat) (rc' : RunContext) (k : Nat)
    (hrc : rc.is_blocked = false)
    (hret : taskWaitRun f t bt rc fuel = WaitResult.returned rc' k) :
    f k ≠ 0 ∧ (∀ j, j < k → f j = 0) ∧
    rc'.waiting_for_tasks = rc.waiting_for_tasks ++ [t] ∧
    (f 0 ≠ 0 → k = 0) := by
  unfold taskWaitRun at hret
  rw [if_neg (by simp [hrc])] at hret
  obtain ⟨h1, _, h3, h4⟩ :=
    waitLoop_returned f fuel 0
      { rc with waiting_for_tasks := rc.waiting_for_tasks ++ [t],
                block_time_us := bt } rc' k hrc hret
  refine ⟨h3, fun j hj => h4 j (Nat.zero_le _) hj, by rw [h1], ?_⟩
  intro hf0
  by_contra hk
  exact hf0 (h4 0 (Nat.zero_le _) (Nat.pos_of_ne_zero hk))

/-- A completion flag that becomes non-zero at the third load. -/
def flagAfterTwo : Nat → Nat :=
  fun j => if j < 2 then 0 else 1

/-- Witness for C1: with a flag that turns non-zero at load index 2, `Wait`
from an unblocked run context returns at `k = 2` having appended task `9`
to the waiting-for list, and the immediate-return clause is vacuously
available. -/
theorem task_wait_contract_witness :
    flagAfterTwo 2 ≠ 0 ∧
    (⟨false, [9], 3⟩ : RunContext).waiting_for_tasks = [] ++ [9] ∧
    (flagAfterTwo 0 ≠ 0 → 2 = 0) :=
  have h := task_wait_contract flagAfterTwo 9 3 ⟨false, [], 0⟩ 5
    ⟨false, [9], 3⟩ 2 rfl (by decide)
  ⟨h.1, h.2.2.1, h.2.2.2⟩

/-- C2: in runtime mode, entering the wait/yield path with the run
context's blocked flag already set is fatal: `Task::Wait` logs and aborts
via its explicit check (`task.cc` lines 37-46), and `Task::Yield` aborts in
the (spec-modelled) worker blocked-queue bookkeeping. -/
theorem blocked_wait_yield_fatal (f : Nat → Nat) (t bt : Nat)
    (rc : RunContext) (fuel : Nat) (hrc : rc.is_blocked = true) :
    taskWaitRun f t bt rc fuel = WaitResult.fatalAbort ∧
    taskYieldRun bt rc = YieldResult.fatalAbort := by
  constructor
  · unfold taskWaitRun
    rw [if_pos hrc]
  · unfold taskYieldRun
    simp [addToBlockedQueueOk, hrc]

/-- An always-zero completion flag. -/
def constZeroFlag : Nat → Nat :=
  fun _ => 0

/-- Witness for C2: from an already-blocked run context both `Wait` and
`Yield` abort. -/
theorem blocked_wait_yield_fatal_witness :
    taskWaitRun constZeroFlag 1 2 ⟨true, [], 0⟩ 3 = WaitResult.fatalAbort ∧
    taskYieldRun 2 ⟨true, [], 0⟩ = YieldResult.fatalAbort :=
  blocked_wait_yield_fatal constZeroFlag 1 2 ⟨true, [], 0⟩ 3 rfl

end CoreSpec
